import Mathlib

/-!
Verification of the core reconciliation logic of `src/features/score_verify.py`
(drive reconciliation, invalid-score detection and repair, quarter-score
cross-check) against its natural-language specification.

Tables are modelled as lists of rows in position order; the default pandas
`RangeIndex` means a row's index label equals its position, so `DataFrame.loc`
label lookups are positional lookups here.  Missing values (`NaN`) and
pandas operations that can fail (label lookups of absent labels) are
modelled with `Option`.
-/

set_option autoImplicit false

namespace CfbModel

/-- Which side of the game a computation refers to (`'home'` / `'away'`). -/
inductive Side where
  | home
  | away
  deriving DecidableEq, Repr, Fintype

/-- One row of the play-by-play table.  Column `id` (the game id) is named
`gid` to avoid clashing with the identity function.  Columns not used by any
verified function (conferences, clock, yardage, play text, ...) are omitted;
they are never read or written by the code under verification. -/
structure Play where
  gid : Int
  week : Int
  offense : String
  defense : String
  home_team : String
  away_team : String
  home_score : Int
  away_score : Int
  drive_id : Int
  period : Int
  play_type : String
  deriving DecidableEq, Repr

/-- One row of the drive-chart table (after the loader's merge with matchup
locations, which supplies `home_team` / `away_team`). -/
structure DriveRow where
  gid : Int
  drive_id : Int
  offense : String
  home_team : String
  away_team : String
  deriving DecidableEq, Repr

/-- One row of the matchup table.  `home_line` / `away_line` are the five
per-quarter line-score slots `home_line_scores[0] .. [4]`; a `none` entry is
an unset (`NaN`) slot. -/
structure MatchupRow where
  gid : Int
  week : Int
  home_team : String
  away_team : String
  home_line : List (Option Int)
  away_line : List (Option Int)
  deriving DecidableEq, Repr

/-- `p` is a prefix of `l` (plain boolean recursion on char lists). -/
def prefOf : List Char → List Char → Bool
  | [], _ => true
  | _ :: _, [] => false
  | a :: as, b :: bs => a == b && prefOf as bs

/-- `p` occurs as a contiguous run inside `l`. -/
def containsSub (p : List Char) : List Char → Bool
  | [] => prefOf p []
  | b :: bs => prefOf p (b :: bs) || containsSub p bs

/-- `pbp["play_type"].str.contains("Kickoff")` for one cell. -/
def containsKickoff (s : String) : Bool :=
  containsSub "Kickoff".data s.data

/-- The team name of a side on a play-by-play row (`pbp[f"{side}_team"]`). -/
def sideTeamP : Side → Play → String
  | .home, r => r.home_team
  | .away, r => r.away_team

/-- The team name of a side on a drive-chart row. -/
def sideTeamD : Side → DriveRow → String
  | .home, r => r.home_team
  | .away, r => r.away_team

/-- The score column of a side on a play-by-play row. -/
def scoreOfP : Side → Play → Int
  | .home, r => r.home_score
  | .away, r => r.away_score

/-! ### Score repairer: `get_invalid_score_changes` and `fix_scores` -/

/-- The deltas accepted by `get_invalid_score_changes`:
`[0, 2, 3, 6, 7, 8]`. -/
def validDeltas : List Int := [0, 2, 3, 6, 7, 8]

/-- Whether row `i` is selected into `{side}_scores_to_check`:
`~(pbp.{side}_score.diff().isin([0,2,3,6,7,8])) & (pbp.{side}_score != 0)`.
`Series.diff` subtracts the physically previous row of the whole table
(game boundaries are not considered), and produces `NaN` on the first row;
`NaN.isin(...)` is false, so the negation holds on the first row. -/
def flaggedSide (s : Side) (pbp : List Play) (i : Nat) : Bool :=
  match pbp.get? i with
  | none => false
  | some r =>
    (scoreOfP s r != 0) &&
      (match i, pbp.get? (i - 1) with
       | 0, _ => true
       | Nat.succ _, none => true
       | Nat.succ _, some p => !(validDeltas.contains (scoreOfP s r - scoreOfP s p)))

/-- The index of `scores_to_check`: the home-flagged rows appended with the
away-flagged rows, then `sort_index()`.  A row flagged on both sides occurs
twice (the concatenation is not deduplicated). -/
def flaggedIndices (pbp : List Play) : List Nat :=
  (List.range pbp.length).flatMap (fun i =>
    (if flaggedSide .home pbp i then [i] else []) ++
      (if flaggedSide .away pbp i then [i] else []))

/-- The game id at position `i`. -/
def gidAt (pbp : List Play) (i : Nat) : Option Int :=
  (pbp.get? i).map (·.gid)

/-- Membership of `i` in `ends_of_games`
(`pbp.loc[pbp["id"] == game].index[-1]` for each game):
`i` is the last position of the table holding its game id. -/
def isGameEnd (pbp : List Play) (i : Nat) : Bool :=
  i < pbp.length &&
    (List.range pbp.length).all (fun j => j ≤ i || gidAt pbp j != gidAt pbp i)

/-- `scores_index`: the flagged indices with
`item - 1 not in ends_of_games and item not in ends_of_games`.
For `item = 0` the Python `item - 1` is `-1`, never an element of
`ends_of_games`. -/
def scoresIndex (pbp : List Play) : List Nat :=
  (flaggedIndices pbp).filter (fun i =>
    (decide (i = 0) || !isGameEnd pbp (i - 1)) && !isGameEnd pbp i)

/-- The label list built by `chain(*zip([i-1 ...], [i ...], [i+1 ...],
[i+2 ...], [i+3 ...]))`: per flagged index the five consecutive labels
`i-1 .. i+3`, as integers (Python's `item - 1` may be `-1`). -/
def candLabels (pbp : List Play) : List Int :=
  (scoresIndex pbp).flatMap (fun i =>
    [(i : Int) - 1, (i : Int), (i : Int) + 1, (i : Int) + 2, (i : Int) + 3])

/-- One cell of a `.loc` list selection on the program's pandas era
(0.23-0.25): a label present in the default `RangeIndex` yields its row;
a missing label does not raise — the frame is reindexed and the missing
label contributes a phantom all-`NaN` row, modelled as `none`. -/
def locSelect (pbp : List Play) (l : Int) : Option Play :=
  if l < 0 then none else pbp.get? l.toNat

/-- `get_invalid_score_changes(pbp)`: the candidate frame
`pbp.loc[list(chain(*zip(...)))]`.  Each row carries its index label; a
window label that falls outside the table yields a phantom all-`NaN` row
(`none`) rather than an error on the era pandas. -/
def get_invalid_score_changes (pbp : List Play) : List (Int × Option Play) :=
  (candLabels pbp).map (fun l => (l, locSelect pbp l))

/-- Whether a label is live in the default `RangeIndex` of `pbp`.  The
`.loc` list ASSIGNMENT in `fix_scores` (`pbp.loc[labels, col] = v`)
raises a lookup error as soon as a chunk's labels contain a dead one. -/
def labelOK (pbp : List Play) (l : Int) : Bool :=
  decide (0 ≤ l) && decide (l.toNat < pbp.length)

/-- A window label paired with its row when the label is live, `none`
otherwise.  Bookkeeping for the repair's success condition: `fix_scores`
returns a table exactly when every window label is live, since a dead
label makes its chunk's write-back raise. -/
def lookupAt (pbp : List Play) (l : Int) : Option (Nat × Play) :=
  if l < 0 then none
  else (pbp.get? l.toNat).map (fun r => (l.toNat, r))

/-- Sequence a list of optional results: `some` of all values when every
one is present, `none` as soon as one is missing. -/
def mapOpt {α β : Type} (f : α → Option β) : List α → Option (List β)
  | [] => some []
  | a :: as =>
    match f a, mapOpt f as with
    | some b, some bs => some (b :: bs)
    | _, _ => none

/-- The candidate rows with their positions when every window label is
live — exactly the runs on which `fix_scores`' write-backs all succeed and
the repair returns; `none` marks the runs whose write-back raises. -/
def checkedCandidates (pbp : List Play) : Option (List (Nat × Play)) :=
  mapOpt (lookupAt pbp) (candLabels pbp)

/-- The five candidate-frame cells produced by one flagged index: the
labels `i-1 .. i+3` with their rows (or phantom `none` cells). -/
def windowCells (pbp : List Play) (i : Nat) : List (Int × Option Play) :=
  ([(i : Int) - 1, (i : Int), (i : Int) + 1, (i : Int) + 2,
    (i : Int) + 3]).map (fun l => (l, locSelect pbp l))

/-- The maximal multiplicity of a value in a list. -/
def maxCount (l : List Int) : Nat :=
  (l.map (fun a => l.count a)).foldr max 0

/-- `Series.mode()[0]` for pandas: `mode()` lists the values of maximal
multiplicity in ascending order, and `[0]` takes the first, i.e. the
smallest such value.  Junk value `0` for the empty list (pandas would
raise; all call sites pass nonempty groups). -/
def pandasMode (l : List Int) : Int :=
  match l.filter (fun a => l.count a == maxCount l) with
  | [] => 0
  | a :: as => as.foldl min a

/-- The number of groups of `groupby(np.arange(len) // num_plays)` with
`num_plays = 5`: `⌈n / 5⌉`. -/
def numGroups (n : Nat) : Nat :=
  if n = 0 then 0 else (n - 1) / 5 + 1

/-- `pbp.loc[positions, "home_score"] = h` together with
`pbp.loc[positions, "away_score"] = a`: rewrite the two score columns of
every row whose position is listed, leave all else untouched.
`i` is the position of the first row of `t`. -/
def setScoresAux (ps : List Nat) (h a : Int) : Nat → List Play → List Play
  | _, [] => []
  | i, r :: rs =>
    (if ps.contains i then { r with home_score := h, away_score := a } else r)
      :: setScoresAux ps h a (i + 1) rs

/-- Apply one repair chunk: compute the home and away modes of the chunk's
snapshot rows and overwrite the score columns of the chunk's positions. -/
def applyChunk (t : List Play) (c : List (Nat × Play)) : List Play :=
  setScoresAux (c.map (·.1)) (pandasMode (c.map (·.2.home_score)))
    (pandasMode (c.map (·.2.away_score))) 0 t

/-- Loop body for group `n` of `fix_scores`: the group is
`scores_to_fix.iloc[n*5 : n*5+5]` (a slice of the snapshot taken before any
write), its modes are `home_modes[n]` / `away_modes[n]`. -/
def applyGroup (cand : List (Nat × Play)) (t : List Play) (n : Nat) : List Play :=
  applyChunk t ((cand.drop (5 * n)).take 5)

/-- Apply one repair chunk given as candidate-frame cells: `Series.mode()`
drops `NaN` entries, so the modes come from the chunk's non-phantom rows,
and the write-back rewrites the score columns at the chunk's labels. -/
def applyChunkCells (t : List Play) (c : List (Int × Option Play)) : List Play :=
  setScoresAux (c.map (fun p => p.1.toNat))
    (pandasMode ((c.filterMap (·.2)).map (·.home_score)))
    (pandasMode ((c.filterMap (·.2)).map (·.away_score))) 0 t

/-- Loop body for group `n` of `fix_scores` over the candidate frame. -/
def applyGroupCells (cand : List (Int × Option Play)) (t : List Play)
    (n : Nat) : List Play :=
  applyChunkCells t ((cand.drop (5 * n)).take 5)

/-- `fix_scores(pbp, num_plays=5)`: take the candidate frame once, then
for `n in range(len(home_modes))` assign the group's modes to the score
columns at the group's labels.  The `.loc` list assignment raises a lookup
error on a dead label, so the loop runs to completion — and the function
returns a table — exactly when every group's labels are live; otherwise
the fold is abandoned mid-loop by the exception and nothing is returned
(`none`). -/
def fix_scores (pbp : List Play) : Option (List Play) :=
  if (List.range (numGroups (get_invalid_score_changes pbp).length)).all
      (fun n => (((get_invalid_score_changes pbp).drop (5 * n)).take 5).all
        (fun p => labelOK pbp p.1))
  then some ((List.range (numGroups (get_invalid_score_changes pbp).length)).foldl
      (applyGroupCells (get_invalid_score_changes pbp)) pbp)
  else none

/-- Consecutive chunks of five (fuel-driven so that it reduces in the
kernel); the last chunk is shorter when fewer than five elements remain. -/
def chunksAux {α : Type} : Nat → List α → List (List α)
  | 0, _ => []
  | _, [] => []
  | Nat.succ fuel, l => l.take 5 :: chunksAux fuel (l.drop 5)

/-- Partition a list into consecutive, non-overlapping chunks of five. -/
def chunksOf5 {α : Type} (l : List α) : List (List α) :=
  chunksAux l.length l

/-- The mode-tie resolution the specification asks for: among the values of
maximal multiplicity, the first one encountered in row order. -/
def firstMode (l : List Int) : Int :=
  match l.find? (fun a => l.count a == maxCount l) with
  | none => 0
  | some a => a

/-- A play with its score columns blanked, for stating that a
transformation touches nothing but the scores. -/
def eraseScores (r : Play) : Play :=
  { r with home_score := 0, away_score := 0 }

/-! ### Drive reconciler: `get_drive_counts`, `get_pbp_drives`,
`get_dc_drives`, `get_missing_drives` -/

/-- The play-by-play rows grouped for a side and game:
`pbp[~(pbp["play_type"].str.contains("Kickoff"))]
  .loc[pbp["offense"] == pbp[f"{side}_team"]].groupby("id")`, one group. -/
def pbpSideRows (s : Side) (pbp : List Play) (g : Int) : List Play :=
  pbp.filter (fun r =>
    !containsKickoff r.play_type && r.offense == sideTeamP s r && r.gid == g)

/-- The drive-chart rows grouped for a side and game:
`drives.loc[drives["offense"] == drives[f"{side}_team"]].groupby("id")`,
one group. -/
def dcSideRows (s : Side) (drives : List DriveRow) (g : Int) : List DriveRow :=
  drives.filter (fun r => r.offense == sideTeamD s r && r.gid == g)

/-- The drive ids of a side's play-by-play group, with repetition. -/
def pbpIdsRaw (s : Side) (pbp : List Play) (g : Int) : List Int :=
  (pbpSideRows s pbp g).map (·.drive_id)

/-- The drive ids of a side's drive-chart group, with repetition. -/
def dcIdsRaw (s : Side) (drives : List DriveRow) (g : Int) : List Int :=
  (dcSideRows s drives g).map (·.drive_id)

/-- The group keys of the side's play-by-play `groupby("id")`, in the
ascending order `groupby` produces. -/
def pbpGames (s : Side) (pbp : List Play) : List Int :=
  List.insertionSort (· ≤ ·)
    ((pbp.filter (fun r =>
      !containsKickoff r.play_type && r.offense == sideTeamP s r)).map (·.gid)).dedup

/-- `agg({"drive_id": "nunique"})` for the side's play-by-play group:
the number of distinct drive ids. -/
def pbpDriveCount (s : Side) (pbp : List Play) (g : Int) : Nat :=
  (pbpIdsRaw s pbp g).dedup.length

/-- `agg({"drive_id": "unique"})` for the side's play-by-play group:
the distinct drive ids in order of first appearance. -/
def get_pbp_drives (pbp : List Play) (s : Side) (g : Int) : List Int :=
  (pbpIdsRaw s pbp g).dedup

/-- `agg({"drive_id": "unique"})` for the side's drive-chart group, `none`
when the game has no row in that group (the left joins in
`get_drive_counts` / `get_missing_drives` then leave `NaN`). -/
def get_dc_drives (drives : List DriveRow) (s : Side) (g : Int) : Option (List Int) :=
  if (dcSideRows s drives g).isEmpty then none
  else some (dcIdsRaw s drives g).dedup

/-- `np.setdiff1d`: the sorted distinct values of the first list that are
absent from the second. -/
def npSetdiff (l d : List Int) : List Int :=
  List.insertionSort (· ≤ ·) (l.filter (fun x => !d.contains x)).dedup

/-- `np.nan if len(x) == 0 else x` applied to a set-difference result. -/
def nullIfEmpty {α : Type} (l : List α) : Option (List α) :=
  if l.isEmpty then none else some l

/-- One output row of `get_missing_drives` (the row of `get_drive_counts`
joined with `get_pbp_drives` and `get_dc_drives`, plus the two
set-difference columns).  Fields coming from the drive-chart side of the
left join are `none` when the game is absent from that side's drive-chart
group.  `extra_dc_drives` elements are `Option Int` because
`np.setdiff1d(np.nan, ids)` yields an array holding `NaN` (a `none`
element) rather than an empty array. -/
structure DriveRecon where
  gid : Int
  side : Side
  pbp_drives : Nat
  drive_chart_drives : Option Nat
  difference : Option Int
  pbp_drive_id : List Int
  dc_drive_id : Option (List Int)
  extra_pbp_drives : Option (List Int)
  extra_dc_drives : Option (List (Option Int))
  deriving DecidableEq, Repr

/-- The `get_missing_drives` row of a game present in the side's
play-by-play group. -/
def reconRow (s : Side) (pbp : List Play) (drives : List DriveRow) (g : Int) :
    DriveRecon :=
  let pIds := get_pbp_drives pbp s g
  let dIds := get_dc_drives drives s g
  { gid := g
    side := s
    pbp_drives := pbpDriveCount s pbp g
    drive_chart_drives := dIds.map (·.length)
    difference := dIds.map (fun ds => (pIds.length : Int) - (ds.length : Int))
    pbp_drive_id := pIds
    dc_drive_id := dIds
    extra_pbp_drives :=
      nullIfEmpty (npSetdiff (pbpIdsRaw s pbp g)
        (match dIds with | some ds => ds | none => []))
    extra_dc_drives :=
      match dIds with
      | some ds =>
        nullIfEmpty ((npSetdiff ds pIds).map some)
      | none => some [none] }

/-- `get_missing_drives(pbp, drives)`: the home-side rows appended with the
away-side rows; each side has one row per game of its play-by-play group
(`get_drive_counts` left-joins the drive-chart counts onto the
play-by-play counts). -/
def get_missing_drives (pbp : List Play) (drives : List DriveRow) :
    List DriveRecon :=
  (pbpGames .home pbp).map (reconRow .home pbp drives) ++
    (pbpGames .away pbp).map (reconRow .away pbp drives)

/-! ### Scoreboard cross-checker: `compare_pbp_matchup`,
`nonzero_score_diffs` -/

/-- The five line-score slots of a side. -/
def lineOf : Side → MatchupRow → List (Option Int)
  | .home, m => m.home_line
  | .away, m => m.away_line

/-- Slot `q` (quarter number, `1 ≤ q ≤ 5`) of a line-score list. -/
def lineAt (l : List (Option Int)) (q : Nat) : Option Int :=
  (l.get? (q - 1)).join

/-- The sum of the set slots among quarters `1 .. q` (an unset slot
contributes nothing to a pandas `cumsum`). -/
def sumThrough (l : List (Option Int)) (q : Nat) : Int :=
  ((List.range q).map (fun j => (lineAt l (j + 1)).getD 0)).sum

/-- `cumsum(axis=1)` at quarter `q`: pandas leaves `NaN` where the slot
itself is `NaN` and otherwise sums the set slots so far. -/
def cumLine (l : List (Option Int)) (q : Nat) : Option Int :=
  (lineAt l q).map (fun _ => sumThrough l q)

/-- The matchup row of a game (`matchup.set_index("id")`; the matchup
table has one row per game). -/
def findMatchup (matchup : List MatchupRow) (g : Int) : Option MatchupRow :=
  matchup.find? (fun m => m.gid == g)

/-- The pivoted play-by-play score of a side at quarter `q`: the score at
`pbp.loc[(pbp["id"] == game) & (pbp["period"] == period)].index[-1]`, the
last play of that period; `none` when the game has no play in period `q`
(the pivot leaves `NaN`). -/
def pbpScoreQ (s : Side) (pbp : List Play) (g : Int) (q : Nat) : Option Int :=
  ((pbp.filter (fun r => r.gid == g && r.period == (q : Int))).getLast?).map
    (scoreOfP s)

/-- One diff cell of `compare_pbp_matchup`:
`pbp_scores[f"{side}_score_q{q}"] - cum_matchup_scores[f"{side}_score_q{q}"]`
(`NaN` on either side, including a game absent from the matchup table,
yields `NaN`). -/
def score_diff (pbp : List Play) (matchup : List MatchupRow) (s : Side)
    (g : Int) (q : Nat) : Option Int :=
  match pbpScoreQ s pbp g q,
      (findMatchup matchup g).bind (fun m => cumLine (lineOf s m) q) with
  | some a, some b => some (a - b)
  | _, _ => none

/-- The games of the `compare_pbp_matchup` output (the pivot's row index):
the distinct game ids of the play-by-play table, ascending. -/
def outGames (pbp : List Play) : List Int :=
  List.insertionSort (· ≤ ·) ((pbp.map (·.gid)).dedup)

/-- pandas `diff != 0` on a possibly-`NaN` cell: `NaN != 0` is true. -/
def neZeroPandas (d : Option Int) : Bool :=
  match d with
  | none => true
  | some v => v != 0

/-- `nonzero_score_diffs(pbp, matchup)` as the list of game ids kept by the
filter: quarters 1-4 are compared with plain `!= 0` (`NaN` passes), quarter
5 through `fillna(0)`. -/
def nonzero_score_diffs (pbp : List Play) (matchup : List MatchupRow) :
    List Int :=
  (outGames pbp).filter (fun g =>
    neZeroPandas (score_diff pbp matchup .home g 1) ||
    neZeroPandas (score_diff pbp matchup .home g 2) ||
    neZeroPandas (score_diff pbp matchup .home g 3) ||
    neZeroPandas (score_diff pbp matchup .home g 4) ||
    ((score_diff pbp matchup .home g 5).getD 0 != 0) ||
    neZeroPandas (score_diff pbp matchup .away g 1) ||
    neZeroPandas (score_diff pbp matchup .away g 2) ||
    neZeroPandas (score_diff pbp matchup .away g 3) ||
    neZeroPandas (score_diff pbp matchup .away g 4) ||
    ((score_diff pbp matchup .away g 5).getD 0 != 0))

/-! ### Specification-side predicates -/

/-- What the code's per-side flagging actually computes, stated
declaratively: row `i` exists, its score for the side is nonzero, and
either it is the very first row of the table (undefined delta) or its
delta from the physically previous row of the table is not an accepted
score change. -/
def specFlaggedGlobal (s : Side) (pbp : List Play) (i : Nat) : Prop :=
  ∃ r, pbp.get? i = some r ∧ scoreOfP s r ≠ 0 ∧
    (i = 0 ∨ ∃ p, pbp.get? (i - 1) = some p ∧
      scoreOfP s r - scoreOfP s p ∉ validDeltas)

/-! ### Fixtures -/

/-- A play with the given game id and scores; all other columns constant. -/
def mkPlay (g h a : Int) : Play :=
  { gid := g, week := 1, offense := "A", defense := "B", home_team := "A",
    away_team := "B", home_score := h, away_score := a, drive_id := 1,
    period := 1, play_type := "R" }

/-- Two games: the first play of game 2 has score 3 while game 1 ended at
score 10, so the cross-game delta is -7. -/
def c2pbp : List Play :=
  [mkPlay 1 0 0, mkPlay 1 10 0, mkPlay 2 3 0]

/-- One game of four plays with an invalid home delta (+4) on its second
play: the candidate window of that play needs position 4, past the end of
the table. -/
def c3pbp : List Play :=
  [mkPlay 1 0 0, mkPlay 1 4 0, mkPlay 1 4 0, mkPlay 1 4 0]

/-- One game of five plays whose very first play already has a nonzero
home score: row 0 — the first play of its game — is flagged (undefined
delta) and its window needs the label -1, before the table. -/
def c3pbp0 : List Play :=
  [mkPlay 1 5 0, mkPlay 1 5 0, mkPlay 1 5 0, mkPlay 1 5 0, mkPlay 1 5 0]

/-- One game of seven plays with two flagged rows (index 1 for home, index
2 for away), producing two overlapping candidate windows.  The second
window's home scores are `[10, 10, 0, 0, 3]`: a mode tie between 10 and 0
in which the first-encountered value is 10 but the smallest is 0. -/
def c1pbp : List Play :=
  [mkPlay 1 0 0, mkPlay 1 10 7, mkPlay 1 10 11, mkPlay 1 0 11,
    mkPlay 1 0 11, mkPlay 1 3 11, mkPlay 1 3 11]

/-- One game with a single invalid home delta (+4 at index 2) whose window
repair shifts the score of index 1 from 7 to 11, creating a fresh invalid
delta (+11) at index 1: the repaired table is flagged again and a second
run changes it further. -/
def c4bad : List Play :=
  [mkPlay 1 0 0, mkPlay 1 7 0, mkPlay 1 11 0, mkPlay 1 11 0,
    mkPlay 1 11 0, mkPlay 1 11 0, mkPlay 1 11 0]

/-- The specification's exemplar glitch: a scoring play recorded with
delta 4 instead of 6 and corrected on the following play, away from the
game start.  One run repairs it completely and a second run is a no-op. -/
def c4good : List Play :=
  [mkPlay 1 0 0, mkPlay 1 0 0, mkPlay 1 4 0, mkPlay 1 6 0,
    mkPlay 1 6 0, mkPlay 1 6 0, mkPlay 1 6 0, mkPlay 1 6 0]

/-- The candidate table of `c1pbp`: the two overlapping windows rows
0-4 and 1-5, each row carried with its index label. -/
def c1cand : List (Nat × Play) :=
  [(0, mkPlay 1 0 0), (1, mkPlay 1 10 7), (2, mkPlay 1 10 11),
    (3, mkPlay 1 0 11), (4, mkPlay 1 0 11),
    (1, mkPlay 1 10 7), (2, mkPlay 1 10 11), (3, mkPlay 1 0 11),
    (4, mkPlay 1 0 11), (5, mkPlay 1 3 11)]

/-- The result of one `fix_scores` run on `c4bad`: the window rows 1-5
were set to the window mode 11, leaving a fresh invalid +11 delta at
index 1. -/
def c4badOut : List Play :=
  [mkPlay 1 0 0, mkPlay 1 11 0, mkPlay 1 11 0, mkPlay 1 11 0,
    mkPlay 1 11 0, mkPlay 1 11 0, mkPlay 1 11 0]

/-- The result of one `fix_scores` run on `c4good`: the window rows 1-5
were set to the window mode 6 and no invalid delta remains. -/
def c4goodOut : List Play :=
  [mkPlay 1 0 0, mkPlay 1 6 0, mkPlay 1 6 0, mkPlay 1 6 0,
    mkPlay 1 6 0, mkPlay 1 6 0, mkPlay 1 6 0, mkPlay 1 6 0]

/-- A scoreless play of a given game, drive and play type (offense is the
home team "A"). -/
def mkDrivePlay (g d : Int) (pt : String) : Play :=
  { gid := g, week := 1, offense := "A", defense := "B", home_team := "A",
    away_team := "B", home_score := 0, away_score := 0, drive_id := d,
    period := 1, play_type := pt }

/-- A drive-chart row. -/
def mkDriveRow (g d : Int) (off ht at_ : String) : DriveRow :=
  { gid := g, drive_id := d, offense := off, home_team := ht, away_team := at_ }

/-- Ten home drives, each preceded by an extra kickoff play carrying its
own distinct drive id (kickoffs start a new "drive" in play-by-play
semantics). -/
def c5pbp : List Play :=
  (List.range 10).flatMap (fun d =>
    [mkDrivePlay 1 ((d : Int) + 100) "Kickoff", mkDrivePlay 1 (d : Int) "R"])

/-- A one-play, one-game play-by-play table (home offense, drive 1). -/
def pbp6 : List Play :=
  [mkDrivePlay 1 1 "R"]

/-- A drive-chart matching `pbp6` exactly. -/
def drives6 : List DriveRow :=
  [mkDriveRow 1 1 "A" "A" "B"]

/-- A drive-chart holding game 1 (matching `pbp6`) and a second game that
`pbp6` does not have. -/
def drives7 : List DriveRow :=
  [mkDriveRow 1 1 "A" "A" "B", mkDriveRow 2 9 "C" "C" "D"]

/-- A play in period `p` of a game, with the given scores. -/
def mkPlayQ (g h a p : Int) : Play :=
  { mkPlay g h a with period := p }

/-- One game with an overtime period in the play-by-play. -/
def pbp8 : List Play :=
  [mkPlayQ 1 7 0 1, mkPlayQ 1 14 0 2, mkPlayQ 1 21 0 3,
    mkPlayQ 1 21 0 4, mkPlayQ 1 21 0 5]

/-- The matchup row of game 1 with an unset overtime slot: the quarter
line scores sum to the play-by-play totals. -/
def matchup8 : List MatchupRow :=
  [{ gid := 1, week := 1, home_team := "A", away_team := "B",
     home_line := [some 7, some 7, some 7, some 0, none],
     away_line := [some 0, some 0, some 0, some 0, none] }]

/-- One game whose play-by-play stops after period 3 (the quarter-4 pivot
cell is null), with scores matching `matchup8` through period 3. -/
def pbp9 : List Play :=
  [mkPlayQ 1 7 0 1, mkPlayQ 1 14 0 2, mkPlayQ 1 21 0 3]

/-- A full four-period game exactly matching its matchup line scores, with
no overtime on either side. -/
def pbp10 : List Play :=
  [mkPlayQ 1 7 0 1, mkPlayQ 1 14 0 2, mkPlayQ 1 21 0 3, mkPlayQ 1 28 0 4]

/-- The matchup row matching `pbp10` in every quarter, overtime unset. -/
def matchup10 : List MatchupRow :=
  [{ gid := 1, week := 1, home_team := "A", away_team := "B",
     home_line := [some 7, some 7, some 7, some 7, none],
     away_line := [some 0, some 0, some 0, some 0, none] }]

/-! ## Helper lemmas -/

theorem mapOpt_cons_eq_some {α β : Type} (f : α → Option β) (a : α)
    (as : List α) (r : List β) :
    mapOpt f (a :: as) = some r ↔
      ∃ b bs, f a = some b ∧ mapOpt f as = some bs ∧ r = b :: bs := by
  cases hfa : f a <;> cases hrest : mapOpt f as <;>
    simp [mapOpt, hfa, hrest, eq_comm]

/-! ## Claim C2 -/

/-- Claim C2, counterexample: the third row of `c2pbp` is the first play of
game 2 (its game id differs from the previous row's), yet the code flags it
for the home side, because `Series.diff` subtracts across the game
boundary.  The claim says the first play of a game is never flagged. -/
theorem c2_counterexample :
    flaggedSide .home c2pbp 2 = true ∧ gidAt c2pbp 2 ≠ gidAt c2pbp 1 := by
  decide

/-- Claim C2, amended: a row is flagged for a side iff it exists, its score
for that side is nonzero, and either it is the very first row of the whole
table (its delta is undefined) or its score minus the score of the
physically previous row of the table — regardless of game — is not in
{0, 2, 3, 6, 7, 8}. -/
theorem c2_amended (s : Side) (pbp : List Play) (i : Nat) :
    flaggedSide s pbp i = true ↔ specFlaggedGlobal s pbp i := by
  cases hr : pbp[i]? with
  | none => simp [flaggedSide, specFlaggedGlobal, List.get?_eq_getElem?, hr]
  | some r =>
    cases i with
    | zero =>
      simp [flaggedSide, specFlaggedGlobal, List.get?_eq_getElem?, hr]
    | succ j =>
      have hjlt : j < pbp.length := by
        have := (List.getElem?_eq_some.mp hr).1
        omega
      have hp : pbp[j]? = some pbp[j] := List.getElem?_eq_getElem hjlt
      simp [flaggedSide, specFlaggedGlobal, List.get?_eq_getElem?, hr, hp]

/-! ## Helper lemmas for the repair loop -/

theorem mapOpt_length {α β : Type} (f : α → Option β) :
    ∀ (l : List α) (r : List β), mapOpt f l = some r → r.length = l.length := by
  intro l
  induction l with
  | nil =>
    intro r h
    have hr : r = [] := by simpa [mapOpt, eq_comm] using h
    subst hr
    rfl
  | cons a as ih =>
    intro r h
    rw [mapOpt_cons_eq_some] at h
    obtain ⟨b, bs, -, hbs, rfl⟩ := h
    simp [ih bs hbs]

theorem windowLabels_length (idxs : List Nat) :
    (idxs.flatMap (fun i => [(i : Int) - 1, (i : Int), (i : Int) + 1,
      (i : Int) + 2, (i : Int) + 3])).length = 5 * idxs.length := by
  induction idxs with
  | nil => rfl
  | cons i rest ih =>
    rw [List.flatMap_cons, List.length_append, ih]
    simp
    omega

theorem numGroups_succ (n : Nat) (hn : n ≠ 0) :
    numGroups n = numGroups (n - 5) + 1 := by
  unfold numGroups
  by_cases h5 : n ≤ 5
  · rw [if_neg hn, if_pos (by omega : n - 5 = 0), Nat.div_eq_of_lt (by omega)]
  · rw [if_neg hn, if_neg (by omega : ¬n - 5 = 0)]
    rw [show n - 1 = (n - 5 - 1) + 5 by omega, Nat.add_div_right _ (by norm_num)]

theorem chunksAux_flatten {α : Type} :
    ∀ (fuel : Nat) (l : List α), l.length ≤ fuel →
      (chunksAux fuel l).flatten = l := by
  intro fuel
  induction fuel with
  | zero =>
    intro l h
    have hl : l = [] := List.length_eq_zero.mp (by omega)
    subst hl
    rfl
  | succ fuel ih =>
    intro l h
    cases l with
    | nil => rfl
    | cons a as =>
      show (((a :: as).take 5) :: chunksAux fuel ((a :: as).drop 5)).flatten
        = a :: as
      rw [List.flatten_cons, ih _ (by rw [List.length_drop]; omega)]
      exact List.take_append_drop 5 (a :: as)

theorem chunksAux_chunk_length {α : Type} :
    ∀ (fuel : Nat) (l : List α), l.length ≤ fuel → l.length % 5 = 0 →
      ∀ c ∈ chunksAux fuel l, c.length = 5 := by
  intro fuel
  induction fuel with
  | zero =>
    intro l h hm c hc
    have hl : l = [] := List.length_eq_zero.mp (by omega)
    subst hl
    simp [chunksAux] at hc
  | succ fuel ih =>
    intro l h hm c hc
    cases l with
    | nil => simp [chunksAux] at hc
    | cons a as =>
      have hstep : chunksAux (fuel + 1) (a :: as)
          = (a :: as).take 5 :: chunksAux fuel ((a :: as).drop 5) := rfl
      rw [hstep] at hc
      rcases List.mem_cons.mp hc with rfl | hc'
      · rw [List.length_take]
        have hlen : (a :: as).length % 5 = 0 := hm
        have : 5 ≤ (a :: as).length := by
          have : (a :: as).length ≠ 0 := by simp
          omega
        omega
      · exact ih _ (by rw [List.length_drop]; omega)
          (by rw [List.length_drop]; omega) c hc'

theorem foldRange_eq_chunksAux :
    ∀ (fuel : Nat) (cand : List (Nat × Play)) (t : List Play),
      cand.length ≤ fuel →
      (List.range (numGroups cand.length)).foldl (applyGroup cand) t =
        (chunksAux fuel cand).foldl applyChunk t := by
  intro fuel
  induction fuel with
  | zero =>
    intro cand t hle
    have hc : cand = [] := List.length_eq_zero.mp (by omega)
    subst hc
    rfl
  | succ fuel ih =>
    intro cand t hle
    cases cand with
    | nil => rfl
    | cons c0 cs =>
      have hn0 : (c0 :: cs).length ≠ 0 := by simp
      rw [numGroups_succ _ hn0,
        show (c0 :: cs).length - 5 = ((c0 :: cs).drop 5).length from
          (List.length_drop 5 _).symm,
        List.range_succ_eq_map, List.foldl_cons, List.foldl_map]
      have hfun : (fun (acc : List Play) (m : Nat) =>
          applyGroup (c0 :: cs) acc (Nat.succ m))
          = applyGroup ((c0 :: cs).drop 5) := by
        funext acc m
        unfold applyGroup
        rw [show 5 * Nat.succ m = 5 + 5 * m by omega, ← List.drop_drop]
      have h0 : applyGroup (c0 :: cs) t 0 = applyChunk t ((c0 :: cs).take 5) := by
        unfold applyGroup
        rw [Nat.mul_zero, List.drop_zero]
      rw [hfun, h0, ih ((c0 :: cs).drop 5) _ (by rw [List.length_drop]; omega)]
      rfl

/-! ## Helper lemmas for the pandas mode -/

theorem foldr_max_ge (ns : List Nat) (x : Nat) (hx : x ∈ ns) :
    x ≤ ns.foldr max 0 := by
  induction ns with
  | nil => cases hx
  | cons a as ih =>
    rcases List.mem_cons.mp hx with rfl | hx'
    · exact le_max_left _ _
    · exact le_trans (ih hx') (le_max_right _ _)

theorem foldr_max_mem (ns : List Nat) :
    ns.foldr max 0 = 0 ∨ ns.foldr max 0 ∈ ns := by
  induction ns with
  | nil => exact Or.inl rfl
  | cons a as ih =>
    rw [List.foldr_cons]
    rcases max_choice a (as.foldr max 0) with h | h
    · rw [h]
      exact Or.inr (List.mem_cons_self a as)
    · rw [h]
      rcases ih with h0 | hmem
      · exact Or.inl h0
      · exact Or.inr (List.mem_cons_of_mem a hmem)

theorem foldl_min_mem (as : List Int) : ∀ (a : Int), as.foldl min a ∈ a :: as := by
  induction as with
  | nil => intro a; exact List.mem_singleton.mpr rfl
  | cons b bs ih =>
    intro a
    show bs.foldl min (min a b) ∈ a :: b :: bs
    rcases List.mem_cons.mp (ih (min a b)) with h | h
    · rcases min_choice a b with hab | hab
      · rw [h, hab]; exact List.mem_cons_self _ _
      · rw [h, hab]; exact List.mem_cons_of_mem _ (List.mem_cons_self _ _)
    · exact List.mem_cons_of_mem _ (List.mem_cons_of_mem _ h)

theorem foldl_min_le (as : List Int) :
    ∀ (a x : Int), x ∈ a :: as → as.foldl min a ≤ x := by
  induction as with
  | nil =>
    intro a x hx
    rw [List.mem_singleton.mp hx]
    exact le_refl _
  | cons b bs ih =>
    intro a x hx
    show bs.foldl min (min a b) ≤ x
    have hminab : bs.foldl min (min a b) ≤ min a b :=
      ih (min a b) (min a b) (List.mem_cons_self _ _)
    rcases List.mem_cons.mp hx with rfl | hx'
    · exact le_trans hminab (min_le_left _ _)
    · rcases List.mem_cons.mp hx' with rfl | hx''
      · exact le_trans hminab (min_le_right _ _)
      · exact ih (min a b) x (List.mem_cons_of_mem _ hx'')

/-- `Series.mode()[0]` returns a member of maximal multiplicity that is the
smallest among all values of maximal multiplicity. -/
theorem pandasMode_spec (l : List Int) (hl : l ≠ []) :
    pandasMode l ∈ l ∧
      (∀ x ∈ l, l.count x ≤ l.count (pandasMode l)) ∧
      ∀ x ∈ l, l.count x = l.count (pandasMode l) → pandasMode l ≤ x := by
  have hattain : ∃ y ∈ l, l.count y = maxCount l := by
    rcases foldr_max_mem (l.map (fun a => l.count a)) with h0 | hmem
    · exfalso
      obtain ⟨a, as, rfl⟩ := List.exists_cons_of_ne_nil hl
      have hpos : 0 < (a :: as).count a :=
        List.count_pos_iff.mpr (List.mem_cons_self a as)
      have hle : (a :: as).count a ≤ maxCount (a :: as) :=
        foldr_max_ge _ _ (List.mem_map.mpr ⟨a, List.mem_cons_self a as, rfl⟩)
      unfold maxCount at hle
      omega
    · obtain ⟨y, hy, hcy⟩ := List.mem_map.mp hmem
      exact ⟨y, hy, hcy⟩
  obtain ⟨y, hy, hcy⟩ := hattain
  have hyfilter : y ∈ l.filter (fun a => l.count a == maxCount l) :=
    List.mem_filter.mpr ⟨hy, by simp [hcy]⟩
  cases hf : l.filter (fun a => l.count a == maxCount l) with
  | nil => rw [hf] at hyfilter; cases hyfilter
  | cons a as =>
    have hdef : pandasMode l = as.foldl min a := by
      unfold pandasMode
      rw [hf]
    have hmode_filter : pandasMode l ∈ l.filter (fun a => l.count a == maxCount l) := by
      rw [hf, hdef]
      exact foldl_min_mem as a
    have hmode_l : pandasMode l ∈ l ∧ l.count (pandasMode l) = maxCount l := by
      have := List.mem_filter.mp hmode_filter
      exact ⟨this.1, by simpa using this.2⟩
    refine ⟨hmode_l.1, ?_, ?_⟩
    · intro x hx
      rw [hmode_l.2]
      exact foldr_max_ge _ _ (List.mem_map.mpr ⟨x, hx, rfl⟩)
    · intro x hx hcount
      have hxfilter : x ∈ l.filter (fun a => l.count a == maxCount l) :=
        List.mem_filter.mpr ⟨hx, by simp [hcount, hmode_l.2]⟩
      rw [hf] at hxfilter
      rw [hdef]
      exact foldl_min_le as a x hxfilter

/-! ## Helper lemmas for the candidate frame and the write-back guard -/

theorem locSelect_coe (pbp : List Play) (n : Nat) :
    locSelect pbp (n : Int) = pbp.get? n := by
  simp [locSelect, Int.toNat_natCast]

/-- A fully in-range window's cells are the five consecutive plays
starting one before the flagged row, with no phantom. -/
theorem windowCells_slice (pbp : List Play) (i : Nat) (h1 : 1 ≤ i)
    (h2 : i + 3 < pbp.length) :
    (windowCells pbp i).map (·.2) = ((pbp.drop (i - 1)).take 5).map some := by
  cases i with
  | zero => exact absurd h1 (by omega)
  | succ j =>
    have hb0 : j < pbp.length := by omega
    have hb1 : j + 1 < pbp.length := by omega
    have hb2 : j + 2 < pbp.length := by omega
    have hb3 : j + 3 < pbp.length := by omega
    have hb4 : j + 4 < pbp.length := by omega
    have e0 : pbp[j]? = some pbp[j] := List.getElem?_eq_getElem hb0
    have e1 : pbp[j + 1]? = some pbp[j + 1] := List.getElem?_eq_getElem hb1
    have e2 : pbp[j + 2]? = some pbp[j + 2] := List.getElem?_eq_getElem hb2
    have e3 : pbp[j + 3]? = some pbp[j + 3] := List.getElem?_eq_getElem hb3
    have e4 : pbp[j + 4]? = some pbp[j + 4] := List.getElem?_eq_getElem hb4
    have hslice : (pbp.drop (j + 1 - 1)).take 5
        = [pbp[j], pbp[j + 1], pbp[j + 2], pbp[j + 3], pbp[j + 4]] := by
      apply List.ext_getElem?
      intro n
      rw [List.getElem?_take, List.getElem?_drop]
      match n with
      | 0 => simp
      | 1 => simp
      | 2 => simp
      | 3 => simp
      | 4 => simp
      | n + 5 => simp
    unfold windowCells
    rw [hslice,
      show ((j + 1 : Nat) : Int) - 1 = ((j : Nat) : Int) by push_cast; ring,
      show ((j + 1 : Nat) : Int) + 1 = ((j + 2 : Nat) : Int) by push_cast; ring,
      show ((j + 1 : Nat) : Int) + 2 = ((j + 3 : Nat) : Int) by push_cast; ring,
      show ((j + 1 : Nat) : Int) + 3 = ((j + 4 : Nat) : Int) by push_cast; ring]
    simp only [List.map_cons, List.map_nil, locSelect_coe,
      List.get?_eq_getElem?]
    rw [e0, e1, e2, e3, e4]

theorem flatMapCongrMem {α β : Type} (f g : α → List β) :
    ∀ (l : List α), (∀ x ∈ l, f x = g x) → l.flatMap f = l.flatMap g := by
  intro l
  induction l with
  | nil => intro _; rfl
  | cons a as ih =>
    intro h
    rw [List.flatMap_cons, List.flatMap_cons, h a (List.mem_cons_self _ _),
      ih (fun x hx => h x (List.mem_cons_of_mem _ hx))]

/-- The candidate frame is the concatenation of the flagged indices'
window cells. -/
theorem gis_eq_flatMap (pbp : List Play) :
    get_invalid_score_changes pbp =
      (scoresIndex pbp).flatMap (windowCells pbp) := by
  unfold get_invalid_score_changes candLabels windowCells
  rw [List.map_flatMap]

/-- Chunking a concatenation of five-element blocks recovers the blocks. -/
theorem chunksAux_flatMap5 {α β : Type} (f : α → List β) :
    ∀ (l : List α) (fuel : Nat), (l.flatMap f).length ≤ fuel →
      (∀ x ∈ l, (f x).length = 5) → chunksAux fuel (l.flatMap f) = l.map f := by
  intro l
  induction l with
  | nil =>
    intro fuel _ _
    cases fuel <;> rfl
  | cons a as ih =>
    intro fuel hlen h5
    have hfa : (f a).length = 5 := h5 a (List.mem_cons_self _ _)
    rw [List.flatMap_cons] at hlen ⊢
    cases fuel with
    | zero =>
      exfalso
      rw [List.length_append, hfa] at hlen
      omega
    | succ fuel =>
      have hne : f a ++ as.flatMap f ≠ [] := by
        intro hnil
        have hl := congrArg List.length hnil
        rw [List.length_append, hfa] at hl
        simp at hl
      obtain ⟨y, ys, hy⟩ := List.exists_cons_of_ne_nil hne
      rw [hy]
      show (y :: ys).take 5 :: chunksAux fuel ((y :: ys).drop 5)
        = f a :: as.map f
      rw [← hy, List.take_left' hfa, List.drop_left' hfa]
      congr 1
      apply ih
      · rw [List.length_append, hfa] at hlen
        omega
      · exact fun x hx => h5 x (List.mem_cons_of_mem _ hx)

/-- The group loop of `fix_scores` checks exactly the chunks of five. -/
theorem allRange_eq_chunksAux {α : Type} (p : List α → Bool) :
    ∀ (fuel : Nat) (cand : List α), cand.length ≤ fuel →
      ((List.range (numGroups cand.length)).all
          (fun n => p ((cand.drop (5 * n)).take 5)))
        = (chunksAux fuel cand).all p := by
  intro fuel
  induction fuel with
  | zero =>
    intro cand hle
    have hc : cand = [] := List.length_eq_zero.mp (by omega)
    subst hc
    rfl
  | succ fuel ih =>
    intro cand hle
    cases cand with
    | nil => rfl
    | cons c0 cs =>
      have hn0 : (c0 :: cs).length ≠ 0 := by simp
      rw [numGroups_succ _ hn0,
        show (c0 :: cs).length - 5 = ((c0 :: cs).drop 5).length from
          (List.length_drop 5 _).symm,
        List.range_succ_eq_map, List.all_cons, List.all_map]
      have hfun : ((fun n => p (((c0 :: cs).drop (5 * n)).take 5)) ∘ Nat.succ)
          = (fun n => p ((((c0 :: cs).drop 5).drop (5 * n)).take 5)) := by
        funext n
        show p (((c0 :: cs).drop (5 * Nat.succ n)).take 5) = _
        rw [show 5 * Nat.succ n = 5 + 5 * n from by omega, ← List.drop_drop]
      rw [hfun, ih _ (by rw [List.length_drop]; omega)]
      rfl

/-- A window passes the write-back label check exactly when it lies fully
inside the table. -/
theorem window_all_iff (pbp : List Play) (i : Nat) :
    ((windowCells pbp i).all (fun p => labelOK pbp p.1) = true) ↔
      (1 ≤ i ∧ i + 3 < pbp.length) := by
  unfold windowCells labelOK
  simp only [List.map_cons, List.map_nil, List.all_cons, List.all_nil,
    Bool.and_eq_true, Bool.and_true, decide_eq_true_eq]
  constructor <;> intro h
  · omega
  · omega

/-- `fix_scores` returns a table exactly when every flagged window lies
fully inside the table; otherwise a chunk write-back hits a dead label
and raises. -/
theorem fix_isSome_iff (pbp : List Play) :
    (fix_scores pbp).isSome = true ↔
      ∀ i ∈ scoresIndex pbp, 1 ≤ i ∧ i + 3 < pbp.length := by
  have hguard :
      ((List.range (numGroups (get_invalid_score_changes pbp).length)).all
          (fun n => (((get_invalid_score_changes pbp).drop (5 * n)).take 5).all
            (fun p => labelOK pbp p.1))) = true ↔
        ∀ i ∈ scoresIndex pbp, 1 ≤ i ∧ i + 3 < pbp.length := by
    have hA : ((List.range (numGroups (get_invalid_score_changes pbp).length)).all
          (fun n => (((get_invalid_score_changes pbp).drop (5 * n)).take 5).all
            (fun p => labelOK pbp p.1)))
        = (chunksAux (get_invalid_score_changes pbp).length
            (get_invalid_score_changes pbp)).all
            (fun c => c.all (fun p => labelOK pbp p.1)) :=
      allRange_eq_chunksAux
        (fun c : List (Int × Option Play) => c.all (fun p => labelOK pbp p.1))
        _ _ (le_refl _)
    rw [hA, gis_eq_flatMap,
      chunksAux_flatMap5 (windowCells pbp) (scoresIndex pbp) _ (le_refl _)
        (fun x _ => rfl),
      List.all_eq_true]
    constructor
    · intro h i hi
      exact (window_all_iff pbp i).mp
        (h (windowCells pbp i) (List.mem_map_of_mem _ hi))
    · intro h c hc
      obtain ⟨i, hi, rfl⟩ := List.mem_map.mp hc
      exact (window_all_iff pbp i).mpr (h i hi)
  unfold fix_scores
  split
  case isTrue hg => simpa using hguard.mp hg
  case isFalse hg => simpa using fun hb => hg (hguard.mpr hb)

/-! ## Claim C3 -/

/-- Claim C3, counterexample.  Two refutations on the era pandas.  In
`c3pbp0`, row 0 — the first play of its game — is flagged and is NOT
excluded (the claim excludes flagged rows adjacent to a game boundary),
so its window reaches label -1.  In `c3pbp`, the flagged interior row 1
does not expand to a 5-row window of plays: position 4 does not exist and
the candidate frame holds a phantom `NaN` cell there instead; the
subsequent `fix_scores` write-back then raises on the dead label and the
repair fails to return. -/
theorem c3_counterexample :
    scoresIndex c3pbp0 = [0] ∧
      get_invalid_score_changes c3pbp0 =
        [(-1, none), (0, some (mkPlay 1 5 0)), (1, some (mkPlay 1 5 0)),
          (2, some (mkPlay 1 5 0)), (3, some (mkPlay 1 5 0))] ∧
      scoresIndex c3pbp = [1] ∧
      get_invalid_score_changes c3pbp =
        [(0, some (mkPlay 1 0 0)), (1, some (mkPlay 1 4 0)),
          (2, some (mkPlay 1 4 0)), (3, some (mkPlay 1 4 0)), (4, none)] ∧
      fix_scores c3pbp = none := by
  decide

/-- Claim C3, amended: flagged rows that are the last play of a game or
that immediately follow the last play of a game are dropped; every other
flagged row — including the first row of the table and rows within three
plays of the table's end — expands to the five consecutive index labels
`i-1 .. i+3` (windows may cross into an adjacent game).  The selection
itself never raises: when every window lies fully inside the table the
candidate frame is exactly the five consecutive plays per flagged row,
while a window reaching outside contributes a phantom `NaN` cell; the
repair's write-back raises on such a label, so `fix_scores` returns a
table exactly when every window is fully in range. -/
theorem c3_amended (pbp : List Play) :
    ((∀ i ∈ scoresIndex pbp, 1 ≤ i ∧ i + 3 < pbp.length) →
        (get_invalid_score_changes pbp).map (·.2) =
          ((scoresIndex pbp).flatMap
            (fun i => (pbp.drop (i - 1)).take 5)).map some) ∧
      ((fix_scores pbp).isSome = true ↔
        ∀ i ∈ scoresIndex pbp, 1 ≤ i ∧ i + 3 < pbp.length) ∧
      ∀ i ∈ scoresIndex pbp, ¬(1 ≤ i ∧ i + 3 < pbp.length) →
        ∃ p ∈ get_invalid_score_changes pbp, p.2 = none := by
  refine ⟨?_, fix_isSome_iff pbp, ?_⟩
  · intro hbounds
    rw [gis_eq_flatMap, List.map_flatMap, List.map_flatMap]
    apply flatMapCongrMem
    intro i hi
    exact windowCells_slice pbp i (hbounds i hi).1 (hbounds i hi).2
  · intro i hi hnb
    rw [gis_eq_flatMap]
    by_cases h0 : i = 0
    · subst h0
      refine ⟨(((0 : Nat) : Int) - 1, locSelect pbp (((0 : Nat) : Int) - 1)),
        ?_, ?_⟩
      · apply List.mem_flatMap.mpr
        refine ⟨0, hi, ?_⟩
        unfold windowCells
        exact List.mem_map_of_mem _ (List.mem_cons_self _ _)
      · show locSelect pbp (((0 : Nat) : Int) - 1) = none
        unfold locSelect
        rw [if_pos (by decide)]
    · have hge : pbp.length ≤ i + 3 := by omega
      refine ⟨((i : Int) + 3, locSelect pbp ((i : Int) + 3)), ?_, ?_⟩
      · apply List.mem_flatMap.mpr
        refine ⟨i, hi, ?_⟩
        unfold windowCells
        exact List.mem_map_of_mem _ (by simp)
      · show locSelect pbp ((i : Int) + 3) = none
        unfold locSelect
        rw [if_neg (by omega),
          show ((i : Int) + 3).toNat = i + 3 from by omega]
        exact List.get?_eq_none.mpr hge

/-- Claim C3, witness: the amended theorem applied to `c1pbp`, whose two
flagged windows lie fully inside the table: the candidate frame is the two
5-play windows with no phantom, and the repair returns. -/
theorem c3_witness :
    (get_invalid_score_changes c1pbp).map (·.2) =
        ((scoresIndex c1pbp).flatMap
          (fun i => (c1pbp.drop (i - 1)).take 5)).map some ∧
      (fix_scores c1pbp).isSome = true :=
  ⟨(c3_amended c1pbp).1 (by decide), ((c3_amended c1pbp).2.1).mpr (by decide)⟩

/-! ## Bridge from the success condition to the repair loop -/

theorem checked_cells (pbp : List Play) :
    ∀ (labels : List Int) (cand : List (Nat × Play)),
      mapOpt (lookupAt pbp) labels = some cand →
      labels.map (fun l => (l, locSelect pbp l)) =
          cand.map (fun p => ((p.1 : Int), some p.2)) ∧
        ∀ p ∈ cand, p.1 < pbp.length := by
  intro labels
  induction labels with
  | nil =>
    intro cand h
    have hc : cand = [] := by simpa [mapOpt, eq_comm] using h
    subst hc
    exact ⟨rfl, by simp⟩
  | cons l ls ih =>
    intro cand h
    rw [mapOpt_cons_eq_some] at h
    obtain ⟨b, bs, hb, hbs, rfl⟩ := h
    unfold lookupAt at hb
    by_cases hneg : l < 0
    · rw [if_pos hneg] at hb
      cases hb
    · rw [if_neg hneg] at hb
      obtain ⟨r, hr, rfl⟩ := Option.map_eq_some'.mp hb
      obtain ⟨hmap, hlt⟩ := ih bs hbs
      constructor
      · rw [List.map_cons, List.map_cons, hmap,
          show locSelect pbp l = some r from by
            unfold locSelect; rw [if_neg hneg, hr],
          Int.toNat_of_nonneg (by omega : (0 : Int) ≤ l)]
      · intro p hp
        rcases List.mem_cons.mp hp with rfl | hp'
        · exact (List.get?_eq_some.mp hr).1
        · exact hlt p hp'

theorem applyChunkCells_map (t : List Play) (c : List (Nat × Play)) :
    applyChunkCells t (c.map (fun p => ((p.1 : Int), some p.2))) =
      applyChunk t c := by
  unfold applyChunkCells applyChunk
  rw [show (c.map (fun p => ((p.1 : Int), some p.2))).map (fun p => p.1.toNat)
        = c.map (·.1) from by
      simp [List.map_map, Function.comp, Int.toNat_natCast],
    show (c.map (fun p => ((p.1 : Int), some p.2))).filterMap (·.2)
        = c.map (·.2) from by
      rw [List.filterMap_map]
      exact congrFun (List.filterMap_eq_map (fun p : Nat × Play => p.2)) c,
    List.map_map, List.map_map]
  rfl

/-- On a run whose window labels are all live, the era `fix_scores`
returns and its loop coincides with the repair loop over the position-
indexed candidate rows. -/
theorem fix_scores_checked (pbp : List Play) (cand : List (Nat × Play))
    (h : checkedCandidates pbp = some cand) :
    fix_scores pbp = some ((List.range (numGroups cand.length)).foldl
      (applyGroup cand) pbp) := by
  have hcc := h
  unfold checkedCandidates at hcc
  obtain ⟨hcells, hbound⟩ := checked_cells pbp (candLabels pbp) cand hcc
  have hgis : get_invalid_score_changes pbp =
      cand.map (fun p => ((p.1 : Int), some p.2)) := by
    unfold get_invalid_score_changes
    exact hcells
  have hguard : (List.range (numGroups (get_invalid_score_changes pbp).length)).all
      (fun n => (((get_invalid_score_changes pbp).drop (5 * n)).take 5).all
        (fun p => labelOK pbp p.1)) = true := by
    apply List.all_eq_true.mpr
    intro n _
    apply List.all_eq_true.mpr
    intro p hp
    have hpmem : p ∈ get_invalid_score_changes pbp :=
      List.mem_of_mem_drop (List.mem_of_mem_take hp)
    rw [hgis] at hpmem
    obtain ⟨q, hq, rfl⟩ := List.mem_map.mp hpmem
    unfold labelOK
    simp [Int.toNat_natCast, Int.natCast_nonneg]
    exact hbound q hq
  have hfun : applyGroupCells (cand.map (fun p => ((p.1 : Int), some p.2)))
      = applyGroup cand := by
    funext t n
    unfold applyGroupCells applyGroup
    rw [← List.map_drop, ← List.map_take]
    exact applyChunkCells_map t _
  unfold fix_scores
  rw [if_pos hguard, hgis, List.length_map, hfun]

/-! ## Claim C1 -/

/-- Claim C1, counterexample: on `c1pbp` the second candidate chunk has
home scores `[10, 10, 0, 0, 3]`, a mode tie between 10 (first encountered
in row order) and 0; the claim demands the chunk be overwritten with 10,
but `fix_scores` leaves every row of that chunk at 0 because pandas
`mode()[0]` picks the smallest tied value. -/
theorem c1_counterexample :
    checkedCandidates c1pbp = some c1cand ∧
      (chunksOf5 c1cand).map (fun c => c.map (·.2.home_score)) =
        [[0, 10, 10, 0, 0], [10, 10, 0, 0, 3]] ∧
      firstMode [10, 10, 0, 0, 3] = 10 ∧
      (fix_scores c1pbp).map (fun t => t.map (·.home_score)) =
        some [0, 0, 0, 0, 0, 0, 3] := by
  decide

/-- Claim C1, amended: `fix_scores` partitions the candidate rows into
consecutive non-overlapping chunks of five in row order and overwrites
the scores of each chunk with the chunk's home/away mode, where a tie in
the mode resolves to the SMALLEST tied value (pandas `mode()[0]`), not to
the first-encountered value. -/
theorem c1_amended (pbp : List Play) (cand : List (Nat × Play))
    (h : checkedCandidates pbp = some cand) :
    fix_scores pbp = some ((chunksOf5 cand).foldl applyChunk pbp) ∧
      (chunksOf5 cand).flatten = cand ∧
      (∀ c ∈ chunksOf5 cand, c.length = 5) ∧
      ∀ c ∈ chunksOf5 cand, ∀ sc : List Int,
        sc = c.map (·.2.home_score) ∨ sc = c.map (·.2.away_score) →
        pandasMode sc ∈ sc ∧
          (∀ x ∈ sc, sc.count x ≤ sc.count (pandasMode sc)) ∧
          ∀ x ∈ sc, sc.count x = sc.count (pandasMode sc) → pandasMode sc ≤ x := by
  have hlen : cand.length = 5 * (scoresIndex pbp).length := by
    unfold checkedCandidates at h
    rw [mapOpt_length _ _ _ h]
    unfold candLabels
    exact windowLabels_length _
  have hmod : cand.length % 5 = 0 := by omega
  refine ⟨?_, chunksAux_flatten _ _ (le_refl _),
    chunksAux_chunk_length _ _ (le_refl _) hmod, ?_⟩
  · rw [fix_scores_checked pbp cand h,
      foldRange_eq_chunksAux cand.length cand pbp (le_refl _)]
    rfl
  · intro c hc sc hsc
    have hc5 : c.length = 5 := chunksAux_chunk_length _ _ (le_refl _) hmod c hc
    have hscne : sc ≠ [] := by
      rcases hsc with rfl | rfl <;>
        simp [List.length_map, hc5, ← List.length_eq_zero]
    exact pandasMode_spec sc hscne

/-- Claim C1, witness: the amended theorem applied to `c1pbp` and its
concrete candidate table. -/
theorem c1_witness :
    fix_scores c1pbp = some ((chunksOf5 c1cand).foldl applyChunk c1pbp) ∧
      (chunksOf5 c1cand).flatten = c1cand :=
  ⟨(c1_amended c1pbp c1cand (by decide)).1,
    (c1_amended c1pbp c1cand (by decide)).2.1⟩

/-! ## Claim C4 -/

/-- Claim C4, counterexample: `c4bad` carries a single injected invalid
delta (+4 at index 2, the only flagged row), yet after one `fix_scores`
run an invalid delta remains (index 1 is flagged on the output) and
re-running `fix_scores` on the output changes it again — repair is not
idempotent and does not always eliminate all invalid deltas. -/
theorem c4_counterexample :
    flaggedIndices c4bad = [2] ∧
      fix_scores c4bad = some c4badOut ∧
      flaggedIndices c4badOut = [1] ∧
      fix_scores c4badOut ≠ some c4badOut := by
  decide

/-- Claim C4, amended: when a run flags no rows, `fix_scores` is a no-op;
on the specification's exemplar glitch (`c4good`, a delta of 4 instead of
6 corrected on the next play, away from the game start) one application
removes every invalid delta, so the second application is a no-op — but
this does not extend to every table with a single injected invalid delta
(see the counterexample). -/
theorem c4_amended :
    (∀ pbp : List Play, flaggedIndices pbp = [] → fix_scores pbp = some pbp) ∧
      fix_scores c4good = some c4goodOut ∧
      flaggedIndices c4good = [2] ∧
      flaggedIndices c4goodOut = [] := by
  refine ⟨?_, by decide, by decide, by decide⟩
  intro pbp hflag
  have hsi : scoresIndex pbp = [] := by
    unfold scoresIndex
    rw [hflag]
    rfl
  have hgis : get_invalid_score_changes pbp = [] := by
    unfold get_invalid_score_changes candLabels
    rw [hsi]
    rfl
  unfold fix_scores
  rw [hgis]
  rfl

/-- Claim C4, witness: the no-flag no-op case of the amended theorem
applied to the repaired exemplar table. -/
theorem c4_witness : fix_scores c4goodOut = some c4goodOut :=
  c4_amended.1 c4goodOut (by decide)

/-! ## Claim C5 -/

/-- Claim C5: the drive count of a side for a game is the number of
distinct drive ids among the plays whose offense is that side's team,
kickoff plays excluded; deleting all kickoff plays first does not change
it; and the ten-drives-with-ten-extra-kickoffs fixture counts 10. -/
theorem c5_kickoffs_excluded (s : Side) (pbp : List Play) (g : Int) :
    pbpDriveCount s pbp g =
        ((pbp.filter (fun r => r.gid == g && r.offense == sideTeamP s r &&
          !containsKickoff r.play_type)).map (·.drive_id)).toFinset.card ∧
      pbpDriveCount s (pbp.filter (fun r => !containsKickoff r.play_type)) g =
        pbpDriveCount s pbp g ∧
      pbpDriveCount .home c5pbp 1 = 10 := by
  refine ⟨?_, ?_, by decide⟩
  · have hfeq : pbp.filter (fun r => !containsKickoff r.play_type &&
        r.offense == sideTeamP s r && r.gid == g)
        = pbp.filter (fun r => r.gid == g && r.offense == sideTeamP s r &&
          !containsKickoff r.play_type) := by
      apply List.filter_congr
      intro r _
      cases h1 : containsKickoff r.play_type <;>
        cases h2 : (r.offense == sideTeamP s r) <;>
        cases h3 : (r.gid == g) <;> simp [h1, h2, h3]
    unfold pbpDriveCount pbpIdsRaw pbpSideRows
    rw [List.card_toFinset, hfeq]
  · have hfeq : pbp.filter (fun r => (!containsKickoff r.play_type &&
        r.offense == sideTeamP s r && r.gid == g) && !containsKickoff r.play_type)
        = pbp.filter (fun r => !containsKickoff r.play_type &&
          r.offense == sideTeamP s r && r.gid == g) := by
      apply List.filter_congr
      intro r _
      cases h1 : containsKickoff r.play_type <;>
        cases h2 : (r.offense == sideTeamP s r) <;>
        cases h3 : (r.gid == g) <;> simp [h1, h2, h3]
    unfold pbpDriveCount pbpIdsRaw pbpSideRows
    rw [List.filter_filter, hfeq]

/-! ## Helper lemmas for drive reconciliation -/

theorem pbpGames_iff (s : Side) (pbp : List Play) (g : Int) :
    g ∈ pbpGames s pbp ↔ pbpSideRows s pbp g ≠ [] := by
  unfold pbpGames pbpSideRows
  rw [List.mem_insertionSort, List.mem_dedup]
  constructor
  · intro hmem hnil
    obtain ⟨r, hrf, hrg⟩ := List.mem_map.mp hmem
    have hrm := List.mem_filter.mp hrf
    have hr2 : r ∈ pbp.filter (fun x => !containsKickoff x.play_type &&
        x.offense == sideTeamP s x && x.gid == g) := by
      apply List.mem_filter.mpr
      refine ⟨hrm.1, ?_⟩
      have hpred := hrm.2
      simp only [Bool.and_eq_true] at hpred ⊢
      exact ⟨hpred, by simp [hrg]⟩
    rw [hnil] at hr2
    cases hr2
  · intro hne
    obtain ⟨r, hr⟩ := List.exists_mem_of_ne_nil _ hne
    have hrm := List.mem_filter.mp hr
    have hpred := hrm.2
    simp only [Bool.and_eq_true] at hpred
    apply List.mem_map.mpr
    refine ⟨r, List.mem_filter.mpr ⟨hrm.1, ?_⟩, ?_⟩
    · simp only [Bool.and_eq_true]
      exact hpred.1
    · simpa using hpred.2

/-- The row a matched game produces in `get_missing_drives`: zero
difference, both extra-drive columns null. -/
theorem reconRow_matched (s : Side) (pbp : List Play) (drives : List DriveRow)
    (g : Int)
    (hset : ∀ x : Int, x ∈ pbpIdsRaw s pbp g ↔ x ∈ dcIdsRaw s drives g)
    (hg : g ∈ pbpGames s pbp) :
    (reconRow s pbp drives g).difference = some 0 ∧
      (reconRow s pbp drives g).extra_pbp_drives = none ∧
      (reconRow s pbp drives g).extra_dc_drives = none := by
  have hpne : pbpSideRows s pbp g ≠ [] := (pbpGames_iff s pbp g).mp hg
  have hpidne : pbpIdsRaw s pbp g ≠ [] := by
    unfold pbpIdsRaw
    simpa using hpne
  have hdne : dcSideRows s drives g ≠ [] := by
    obtain ⟨x, hx⟩ := List.exists_mem_of_ne_nil _ hpidne
    have hxd : x ∈ dcIdsRaw s drives g := (hset x).mp hx
    unfold dcIdsRaw at hxd
    obtain ⟨r, hr, -⟩ := List.mem_map.mp hxd
    intro hnil
    rw [hnil] at hr
    cases hr
  have hdc : get_dc_drives drives s g = some (dcIdsRaw s drives g).dedup := by
    unfold get_dc_drives
    rw [if_neg (by simpa [List.isEmpty_iff] using hdne)]
  have hcard : (pbpIdsRaw s pbp g).dedup.length
      = (dcIdsRaw s drives g).dedup.length := by
    rw [← List.card_toFinset, ← List.card_toFinset]
    congr 1
    apply Finset.ext
    intro x
    simp only [List.mem_toFinset]
    exact hset x
  have hfilter1 : (pbpIdsRaw s pbp g).filter
      (fun x => !((dcIdsRaw s drives g).dedup.contains x)) = [] := by
    rw [List.filter_eq_nil_iff]
    intro x hx
    have hxm : x ∈ (dcIdsRaw s drives g).dedup :=
      List.mem_dedup.mpr ((hset x).mp hx)
    simpa using hxm
  have hfilter2 : (dcIdsRaw s drives g).dedup.filter
      (fun x => !((pbpIdsRaw s pbp g).dedup.contains x)) = [] := by
    rw [List.filter_eq_nil_iff]
    intro x hx
    have hxm : x ∈ (pbpIdsRaw s pbp g).dedup :=
      List.mem_dedup.mpr ((hset x).mpr (List.mem_dedup.mp hx))
    simpa using hxm
  refine ⟨?_, ?_, ?_⟩
  · simp only [reconRow, hdc, Option.map_some', get_pbp_drives]
    rw [hcard]
    simp
  · simp only [reconRow, hdc, npSetdiff, hfilter1]
    rfl
  · simp only [reconRow, hdc, npSetdiff, get_pbp_drives, hfilter2]
    rfl

/-! ## Claims C6 and C7 -/

/-- Claim C6: when, for each game and side, the play-by-play drive-id set
(kickoffs excluded) and the drive-chart drive-id set coincide, every row
of the reconciliation output has `difference = 0` and null extra-drive
columns. -/
theorem c6_matched (pbp : List Play) (drives : List DriveRow)
    (h : ∀ (s : Side) (g x : Int),
      x ∈ pbpIdsRaw s pbp g ↔ x ∈ dcIdsRaw s drives g) :
    ∀ row ∈ get_missing_drives pbp drives,
      row.difference = some 0 ∧ row.extra_pbp_drives = none ∧
        row.extra_dc_drives = none := by
  intro row hrow
  unfold get_missing_drives at hrow
  rcases List.mem_append.mp hrow with hrow | hrow
  · obtain ⟨g, hg, rfl⟩ := List.mem_map.mp hrow
    exact reconRow_matched .home pbp drives g (h .home g) hg
  · obtain ⟨g, hg, rfl⟩ := List.mem_map.mp hrow
    exact reconRow_matched .away pbp drives g (h .away g) hg

/-- The fixture pair `pbp6`/`drives6` has identical drive-id sets for every
game and side. -/
theorem pbp6_drives6_sets (s : Side) (g x : Int) :
    x ∈ pbpIdsRaw s pbp6 g ↔ x ∈ dcIdsRaw s drives6 g := by
  have heq : pbpIdsRaw s pbp6 g = dcIdsRaw s drives6 g := by
    cases s <;> by_cases hg : (1 : Int) = g
    · subst hg; decide
    · simp [pbpIdsRaw, dcIdsRaw, pbpSideRows, dcSideRows, pbp6, drives6,
        mkDrivePlay, mkDriveRow, sideTeamP, sideTeamD, List.filter_cons,
        (by decide : containsKickoff "R" = false), hg]
    · subst hg; decide
    · simp [pbpIdsRaw, dcIdsRaw, pbpSideRows, dcSideRows, pbp6, drives6,
        mkDrivePlay, mkDriveRow, sideTeamP, sideTeamD, List.filter_cons,
        (by decide : containsKickoff "R" = false), hg]
  rw [heq]

/-- Claim C6, witness: the matched fixture's single output row. -/
theorem c6_witness :
    (reconRow .home pbp6 drives6 1).difference = some 0 ∧
      (reconRow .home pbp6 drives6 1).extra_pbp_drives = none ∧
      (reconRow .home pbp6 drives6 1).extra_dc_drives = none :=
  c6_matched pbp6 drives6 pbp6_drives6_sets (reconRow .home pbp6 drives6 1)
    (by decide)

/-- Claim C7, counterexample: `drives7` holds a game 2 with drive-chart
drives, absent from `pbp6`; the reconciliation output has no row for game
2 at all — `get_drive_counts` left-joins onto the play-by-play side, so a
drive-chart-only game is dropped, not reported with nulls. -/
theorem c7_counterexample :
    (get_missing_drives pbp6 drives7).map (·.gid) = [1] ∧
      dcSideRows .home drives7 2 ≠ [] := by
  decide

/-- Claim C7, amended: the join is a left join on the play-by-play side.
A game present in a side's play-by-play group but absent from that side's
drive-chart group yields a row with null drive-chart count and null
difference (no exception), while every output row's game comes from the
play-by-play side — drive-chart-only games produce no row. -/
theorem c7_amended (pbp : List Play) (drives : List DriveRow) :
    (∀ (s : Side) (g : Int), g ∈ pbpGames s pbp → dcSideRows s drives g = [] →
        reconRow s pbp drives g ∈ get_missing_drives pbp drives ∧
          (reconRow s pbp drives g).drive_chart_drives = none ∧
          (reconRow s pbp drives g).difference = none) ∧
      ∀ row ∈ get_missing_drives pbp drives, row.gid ∈ pbpGames row.side pbp := by
  constructor
  · intro s g hg hdc
    have hmem : reconRow s pbp drives g ∈ get_missing_drives pbp drives := by
      unfold get_missing_drives
      cases s with
      | home => exact List.mem_append_left _ (List.mem_map_of_mem _ hg)
      | away => exact List.mem_append_right _ (List.mem_map_of_mem _ hg)
    have hnone : get_dc_drives drives s g = none := by
      unfold get_dc_drives
      rw [hdc]
      rfl
    refine ⟨hmem, ?_, ?_⟩ <;> simp [reconRow, hnone]
  · intro row hrow
    unfold get_missing_drives at hrow
    rcases List.mem_append.mp hrow with h | h <;>
      obtain ⟨g, hg, rfl⟩ := List.mem_map.mp h <;>
      simpa [reconRow] using hg

/-- Claim C7, witness: the amended theorem applied to `pbp6` with an empty
drive-chart: game 1 still yields a row, with null drive-chart fields. -/
theorem c7_witness :
    reconRow .home pbp6 [] 1 ∈ get_missing_drives pbp6 [] ∧
      (reconRow .home pbp6 [] 1).drive_chart_drives = none ∧
      (reconRow .home pbp6 [] 1).difference = none :=
  (c7_amended pbp6 []).1 .home 1 (by decide) (by decide)

/-! ## Claims C8 and C9 -/

/-- Claim C8, counterexample: in `pbp8` the game reaches overtime (its
period-5 score is 21) and the matchup line slots sum to 21 through quarter
5 (the unset slot contributing 0), so the claim demands a quarter-5 diff
of 0 — but the code's `cumsum` leaves the unset slot `NaN` and the diff is
null. -/
theorem c8_counterexample :
    score_diff pbp8 matchup8 .home 1 5 = none ∧
      pbpScoreQ .home pbp8 1 5 = some 21 ∧
      (findMatchup matchup8 1).map (fun m => sumThrough (lineOf .home m) 5) =
        some 21 := by
  decide

/-- Claim C8, amended: the quarter diff equals the play-by-play score at
the last play of the period minus the sum of the set matchup line slots
through that quarter, and it is null when the play-by-play quarter is
absent, the game is missing from the matchup table, or the matchup's own
line slot for that quarter is unset (pandas `cumsum` leaves `NaN` there —
an unset slot only contributes 0 to LATER quarters' sums). -/
theorem c8_amended (pbp : List Play) (matchup : List MatchupRow) (s : Side)
    (g : Int) (q : Nat) :
    score_diff pbp matchup s g q =
      match pbpScoreQ s pbp g q, findMatchup matchup g with
      | some a, some m =>
        (lineAt (lineOf s m) q).map (fun _ => a - sumThrough (lineOf s m) q)
      | _, _ => none := by
  unfold score_diff cumLine
  cases hp : pbpScoreQ s pbp g q with
  | none => cases hm : findMatchup matchup g <;> simp
  | some a =>
    cases hm : findMatchup matchup g with
    | none => simp
    | some m => cases hl : lineAt (lineOf s m) q <;> simp [hl]

/-- Claim C9, counterexample: `pbp9` stops after period 3 with scores that
match `matchup8` exactly; every quarter diff is either 0 or null (no
mismatch anywhere), yet the game is returned by `nonzero_score_diffs`
because a null quarter-1-to-4 diff passes the pandas `!= 0` filter. -/
theorem c9_counterexample :
    nonzero_score_diffs pbp9 matchup8 = [1] ∧
      (∀ q ∈ [1, 2, 3], score_diff pbp9 matchup8 .home 1 q = some 0 ∧
        score_diff pbp9 matchup8 .away 1 q = some 0) ∧
      ∀ q ∈ [4, 5], score_diff pbp9 matchup8 .home 1 q = none ∧
        score_diff pbp9 matchup8 .away 1 q = none := by
  decide

/-- Claim C9, amended: a null quarter-5 diff is treated as 0 (a game whose
quarter-1-to-4 diffs are all zero and whose quarter-5 diffs are null or
zero on both sides never appears), but a null diff in quarters 1-4 counts
as a mismatch and does make the game appear. -/
theorem c9_amended (pbp : List Play) (matchup : List MatchupRow) (g : Int)
    (h14 : ∀ (s : Side), ∀ q ∈ [1, 2, 3, 4],
      score_diff pbp matchup s g q = some 0)
    (h5 : ∀ s : Side, score_diff pbp matchup s g 5 = none ∨
      score_diff pbp matchup s g 5 = some 0) :
    g ∉ nonzero_score_diffs pbp matchup := by
  intro hmem
  unfold nonzero_score_diffs at hmem
  obtain ⟨-, hcond⟩ := List.mem_filter.mp hmem
  rcases h5 .home with h5h | h5h <;> rcases h5 .away with h5a | h5a <;>
    simp [h14 .home 1 (by decide), h14 .home 2 (by decide),
      h14 .home 3 (by decide), h14 .home 4 (by decide),
      h14 .away 1 (by decide), h14 .away 2 (by decide),
      h14 .away 3 (by decide), h14 .away 4 (by decide),
      h5h, h5a, neZeroPandas] at hcond

/-- Claim C9, witness: the amended theorem on the fully matched no-overtime
fixture `pbp10`/`matchup10`. -/
theorem c9_witness : 1 ∉ nonzero_score_diffs pbp10 matchup10 :=
  c9_amended pbp10 matchup10 1 (by decide) (by decide)

/-! ## Helper lemmas for the frame property of the repair -/

theorem setScoresAux_length (ps : List Nat) (h a : Int) :
    ∀ (t : List Play) (k : Nat), (setScoresAux ps h a k t).length = t.length := by
  intro t
  induction t with
  | nil => intro k; rfl
  | cons r rs ih =>
    intro k
    simp [setScoresAux, ih]

theorem setScoresAux_getElem? (ps : List Nat) (h a : Int) :
    ∀ (t : List Play) (k i : Nat),
      (setScoresAux ps h a k t)[i]? =
        (t[i]?).map (fun r =>
          if ps.contains (k + i) then
            { r with home_score := h, away_score := a } else r) := by
  intro t
  induction t with
  | nil => intro k i; rfl
  | cons r rs ih =>
    intro k i
    cases i with
    | zero => simp [setScoresAux]
    | succ i' =>
      have hstep : (setScoresAux ps h a k (r :: rs))[i' + 1]?
          = (setScoresAux ps h a (k + 1) rs)[i']? := by
        simp [setScoresAux]
      rw [hstep, ih (k + 1) i', show k + 1 + i' = k + (i' + 1) from by omega]
      simp

theorem fold_applyChunk_length (cs : List (List (Nat × Play))) :
    ∀ t : List Play, (cs.foldl applyChunk t).length = t.length := by
  induction cs with
  | nil => intro t; rfl
  | cons c rest ih =>
    intro t
    show (rest.foldl applyChunk (applyChunk t c)).length = t.length
    rw [ih]
    unfold applyChunk
    rw [setScoresAux_length]

theorem eraseScores_set (r : Play) (h a : Int) :
    eraseScores { r with home_score := h, away_score := a } = eraseScores r :=
  rfl

theorem fold_applyChunk_erase (cs : List (List (Nat × Play))) :
    ∀ (t : List Play) (i : Nat),
      ((cs.foldl applyChunk t)[i]?).map eraseScores =
        (t[i]?).map eraseScores := by
  induction cs with
  | nil => intro t i; rfl
  | cons c rest ih =>
    intro t i
    show ((rest.foldl applyChunk (applyChunk t c))[i]?).map eraseScores = _
    rw [ih]
    unfold applyChunk
    rw [setScoresAux_getElem?]
    cases hx : t[i]? with
    | none => rfl
    | some r =>
      simp only [Option.map_some']
      split <;> rfl

theorem fold_applyChunk_out (cs : List (List (Nat × Play))) :
    ∀ (t : List Play) (i : Nat), (∀ c ∈ cs, i ∉ c.map (·.1)) →
      (cs.foldl applyChunk t)[i]? = t[i]? := by
  induction cs with
  | nil => intro t i _; rfl
  | cons c rest ih =>
    intro t i hout
    show (rest.foldl applyChunk (applyChunk t c))[i]? = _
    rw [ih _ _ (fun c' hc' => hout c' (List.mem_cons_of_mem _ hc'))]
    unfold applyChunk
    rw [setScoresAux_getElem?]
    have hni : i ∉ c.map (·.1) := hout c (List.mem_cons_self _ _)
    have hcont : (c.map (·.1)).contains (0 + i) = false := by
      rw [Nat.zero_add]
      simpa using hni
    rw [hcont]
    cases t[i]? <;> simp

theorem chunksAux_subset {α : Type} :
    ∀ (fuel : Nat) (l c : List α), c ∈ chunksAux fuel l → ∀ x ∈ c, x ∈ l := by
  intro fuel
  induction fuel with
  | zero =>
    intro l c hc
    simp [chunksAux] at hc
  | succ fuel ih =>
    intro l c hc x hx
    cases l with
    | nil => simp [chunksAux] at hc
    | cons a as =>
      rcases List.mem_cons.mp hc with rfl | hc'
      · exact List.mem_of_mem_take hx
      · exact List.mem_of_mem_drop (ih _ c hc' x hx)

/-! ## Claim C10 -/

/-- Claim C10: a successful `fix_scores` run returns the input table with
only the score columns of the candidate positions rewritten — the length
is unchanged, every row agrees with the input outside the two score
columns, and rows whose position is not a candidate label are untouched
(the source mutates `pbp` in place and returns it; in this state-passing
model the returned table is the final state of the input table). -/
theorem c10_frame (pbp out : List Play) (cand : List (Nat × Play))
    (hc : checkedCandidates pbp = some cand)
    (h : fix_scores pbp = some out) :
    out.length = pbp.length ∧
      (∀ i : Nat, (out[i]?).map eraseScores = (pbp[i]?).map eraseScores) ∧
      ∀ i : Nat, i ∉ cand.map (·.1) → out[i]? = pbp[i]? := by
  have hout : out = (chunksOf5 cand).foldl applyChunk pbp := by
    rw [fix_scores_checked pbp cand hc] at h
    have h' := Option.some.inj h
    rw [← h', foldRange_eq_chunksAux cand.length cand pbp (le_refl _)]
    rfl
  subst hout
  refine ⟨fold_applyChunk_length _ pbp, fun i => fold_applyChunk_erase _ pbp i, ?_⟩
  intro i hi
  apply fold_applyChunk_out
  intro c hcmem hmemi
  apply hi
  obtain ⟨p, hp, hp1⟩ := List.mem_map.mp hmemi
  exact List.mem_map.mpr ⟨p, chunksAux_subset _ _ c hcmem p hp, hp1⟩

/-- Claim C10, witness: the frame theorem applied to a table with no
flagged rows, whose repair returns the table itself. -/
theorem c10_witness :
    pbp6.length = pbp6.length ∧
      (∀ i : Nat, (pbp6[i]?).map eraseScores = (pbp6[i]?).map eraseScores) ∧
      ∀ i : Nat, i ∉ ([] : List (Nat × Play)).map (·.1) → pbp6[i]? = pbp6[i]? :=
  c10_frame pbp6 pbp6 [] (by decide) (by decide)

end CfbModel
